import Mathlib

/-!
Verification of the honeypot backend session engine (`src/main.py`).

The Python source is shallowly embedded below:
* the four `re` patterns and the keyword vocabulary become an executable
  backtracking regex matcher (Python `re` semantics: leftmost scan, ordered
  alternation, greedy quantifiers with backtracking, ASCII word boundaries;
  the inputs in this development are ASCII, for which Lean's `Char.isAlphanum`
  etc. agree with Python's character classes);
* `detect_scam`, `extract_and_update_intelligence`, `init_new_session_state`
  and the body of `chat_handler` become pure functions on an explicit
  `SessionState`; the external LLM call `generate_agent_reply` is an opaque
  function parameter, and scheduling of `send_final_callback` is recorded in
  the `fired` field of the turn result.
-/

namespace HoneyPot

/-! ### Regex engine (Python `re` semantics for the patterns used) -/

/-- Regular-expression syntax: character classes, sequencing, ordered
alternation, greedy `?`, greedy `*`, greedy bounded repetition `{lo,hi}`,
the word-boundary assertion `\b`, and the empty regex. -/
inductive RE where
  | cls (p : Char → Bool) : RE
  | seq (a b : RE) : RE
  | alt (a b : RE) : RE
  | opt (r : RE) : RE
  | star (r : RE) : RE
  | rep (lo hi : Nat) (r : RE) : RE
  | wordB : RE
  | eps : RE

/-- Python word character (`\w` for ASCII text): `[a-zA-Z0-9_]`. -/
def isWordChar (c : Char) : Bool := c.isAlphanum || c = '_'

/-- Python whitespace (`\s` for ASCII text): space, `\t`, `\n`, `\r`, `\x0b`, `\x0c`. -/
def isPySpace (c : Char) : Bool :=
  c = ' ' || c = '\t' || c = '\n' || c = '\r' || c = '\x0b' || c = '\x0c'

/-- The `\b` assertion holds at `pos` iff exactly one of the character before
and the character at `pos` is a word character (positions outside the text
count as non-word). -/
def wordBoundary (text : List Char) (pos : Nat) : Bool :=
  let before : Bool :=
    match pos with
    | 0 => false
    | Nat.succ p =>
      match text.get? p with
      | some c => isWordChar c
      | none => false
  let after : Bool :=
    match text.get? pos with
    | some c => isWordChar c
    | none => false
  before != after

/-- Backtracking matcher in continuation style.  `mrun text fuel re pos k`
tries to match `re` at `pos`, calling `k` with the end position of each
candidate match, most-preferred (greedy) first, and returns the first success.
`fuel` bounds the recursion depth; every recursive call decreases it, and the
depth of a match attempt is bounded by the regex size plus the number of
characters consumed, so `text.length + 100` suffices for the patterns here. -/
def mrun (text : List Char) : Nat → RE → Nat → (Nat → Option Nat) → Option Nat
  | 0, _, _, _ => none
  | Nat.succ fuel, re, pos, k =>
    match re with
    | RE.eps => k pos
    | RE.cls p =>
      match text.get? pos with
      | some c => if p c then k (pos + 1) else none
      | none => none
    | RE.wordB => if wordBoundary text pos then k pos else none
    | RE.seq a b => mrun text fuel a pos (fun q => mrun text fuel b q k)
    | RE.alt a b =>
      match mrun text fuel a pos k with
      | some e => some e
      | none => mrun text fuel b pos k
    | RE.opt r =>
      match mrun text fuel r pos k with
      | some e => some e
      | none => k pos
    | RE.star r =>
      match mrun text fuel r pos
          (fun q => if pos < q then mrun text fuel (RE.star r) q k else none) with
      | some e => some e
      | none => k pos
    | RE.rep lo hi r =>
      match lo, hi with
      | 0, 0 => k pos
      | Nat.succ _, 0 => none
      | 0, Nat.succ hi2 =>
        match mrun text fuel r pos (fun q => mrun text fuel (RE.rep 0 hi2 r) q k) with
        | some e => some e
        | none => k pos
      | Nat.succ lo2, Nat.succ hi2 =>
        mrun text fuel r pos (fun q => mrun text fuel (RE.rep lo2 hi2 r) q k)

/-- End position of the leftmost-greedy match of `re` starting exactly at `pos`. -/
def matchEnd (text : List Char) (re : RE) (pos : Nat) : Option Nat :=
  mrun text (text.length + 100) re pos some

/-- The substring of `text` from position `a` (inclusive) to `b` (exclusive). -/
def sliceStr (text : List Char) (a b : Nat) : String :=
  ((text.drop a).take (b - a)).asString

/-- Scan for `re.findall`: try each position left to right; on a match record
it and resume after it (after the position itself for an empty match). -/
def findallAux (text : List Char) (re : RE) : Nat → Nat → List String
  | 0, _ => []
  | Nat.succ fuel, pos =>
    if pos ≤ text.length then
      match matchEnd text re pos with
      | some e =>
        if pos < e then sliceStr text pos e :: findallAux text re fuel e
        else sliceStr text pos e :: findallAux text re fuel (pos + 1)
      | none => findallAux text re fuel (pos + 1)
    else []

/-- `re.findall(pattern, s)` (all patterns below have no capturing groups,
so Python returns the full match texts). -/
def findall (re : RE) (s : String) : List String :=
  findallAux s.data re (s.data.length + 2) 0

/-- Scan for `re.search`: does `re` match starting at some position? -/
def searchAux (text : List Char) (re : RE) : Nat → Nat → Bool
  | 0, _ => false
  | Nat.succ fuel, pos =>
    if pos ≤ text.length then
      match matchEnd text re pos with
      | some _ => true
      | none => searchAux text re fuel (pos + 1)
    else false

/-- `bool(re.search(pattern, s))`. -/
def reSearch (re : RE) (s : String) : Bool :=
  searchAux s.data re (s.data.length + 2) 0

/-- A single literal character. -/
def chr (c : Char) : RE := RE.cls (fun d => d = c)

/-- A literal string (sequence of literal characters). -/
def lit : List Char → RE
  | [] => RE.eps
  | c :: cs => RE.seq (chr c) (lit cs)

/-- `r+` is `r` followed by `r*`. -/
def plus (r : RE) : RE := RE.seq r (RE.star r)

/-! ### The four patterns of `REGEX_PATTERNS` (src/main.py lines 104-109) -/

/-- `[a-zA-Z0-9.\-_]` — the local part class of the `upiIds` pattern. -/
def upiLocalChar (c : Char) : Bool := c.isAlphanum || c = '.' || c = '-' || c = '_'

/-- `[a-zA-Z._]` — the domain part class of the `upiIds` pattern. -/
def upiDomChar (c : Char) : Bool := c.isAlpha || c = '.' || c = '_'

/-- `"upiIds": r"[a-zA-Z0-9.\-_]{2,49}@[a-zA-Z._]{2,49}"` -/
def upiIdsRe : RE :=
  RE.seq (RE.rep 2 49 (RE.cls upiLocalChar))
    (RE.seq (chr '@') (RE.rep 2 49 (RE.cls upiDomChar)))

/-- `"phoneNumbers": r"(?:\+91[\-\s]?)?[6-9]\d{9}\b"` -/
def phoneNumbersRe : RE :=
  RE.seq
    (RE.opt (RE.seq (chr '+') (RE.seq (chr '9') (RE.seq (chr '1')
      (RE.opt (RE.cls (fun c => c = '-' || isPySpace c)))))))
    (RE.seq (RE.cls (fun c => '6' ≤ c && c ≤ '9'))
      (RE.seq (RE.rep 9 9 (RE.cls Char.isDigit)) RE.wordB))

/-- `"bankAccounts": r"\b\d{9,18}\b"` -/
def bankAccountsRe : RE :=
  RE.seq RE.wordB (RE.seq (RE.rep 9 18 (RE.cls Char.isDigit)) RE.wordB)

/-- `[-\w.]` — the host class of the `phishingLinks` pattern. -/
def linkHostChar (c : Char) : Bool := c = '-' || isWordChar c || c = '.'

/-- `[\da-fA-F]` — a hexadecimal digit. -/
def hexChar (c : Char) : Bool :=
  c.isDigit || ('a' ≤ c && c ≤ 'f') || ('A' ≤ c && c ≤ 'F')

/-- `"phishingLinks": r"https?://(?:[-\w.]|(?:%[\da-fA-F]{2}))+[^\s]*"` -/
def phishingLinksRe : RE :=
  RE.seq (lit ['h', 't', 't', 'p'])
    (RE.seq (RE.opt (chr 's'))
      (RE.seq (lit [':', '/', '/'])
        (RE.seq (plus (RE.alt (RE.cls linkHostChar)
            (RE.seq (chr '%') (RE.seq (RE.cls hexChar) (RE.cls hexChar)))))
          (RE.star (RE.cls (fun c => !isPySpace c))))))

/-! ### Keyword vocabulary and classifier (src/main.py lines 97-117) -/

/-- `KEYWORDS_SCAM` (src/main.py lines 97-102), in source order. -/
def KEYWORDS_SCAM : List String :=
  ["urgent", "blocked", "verify", "kyc", "upi", "pay", "bank", "account",
   "suspended", "expire", "refund", "prize", "lottery", "password", "otp",
   "click", "link", "credit card", "debit card", "pin", "cvv", "police", "cbi",
   "arrest", "customs", "fedex"]

/-- Python `needle in hay` on strings: substring containment, as character lists. -/
def strContains (hay needle : List Char) : Bool :=
  match hay with
  | [] => needle.isEmpty
  | _ :: t => needle.isPrefixOf hay || strContains t needle

/-- Python `text.lower()` for ASCII text. -/
def lowerStr (s : String) : String := String.mk (s.data.map Char.toLower)

/-- `detect_scam(text)` (src/main.py lines 111-117): a keyword occurs in the
lowercased text, or the raw text matches the link or UPI pattern. -/
def detect_scam (text : String) : Bool :=
  let text_lower := lowerStr text
  (KEYWORDS_SCAM.any (fun k => strContains text_lower.data k.data))
    || (reSearch phishingLinksRe text || reSearch upiIdsRe text)

/-! ### Intelligence store and extraction (src/main.py lines 119-129, 200-202) -/

/-- The five category lists of `session["intelligence"]`. -/
structure Intelligence where
  bankAccounts : List String
  upiIds : List String
  phishingLinks : List String
  phoneNumbers : List String
  suspiciousKeywords : List String
deriving DecidableEq, Repr

/-- Append `v` to `l` only if not already present (the
`if match not in session_intel[key]: append` step). -/
def addUnique (l : List String) (v : String) : List String :=
  if v ∈ l then l else l ++ [v]

/-- `extract_and_update_intelligence(session_intel, text)` (src/main.py lines
119-129): for each pattern append all unseen `findall` matches in order, then
append all unseen vocabulary words found in the lowercased text, in
vocabulary-scan order. -/
def extract_and_update_intelligence (si : Intelligence) (text : String) : Intelligence :=
  { bankAccounts := List.foldl addUnique si.bankAccounts (findall bankAccountsRe text)
    upiIds := List.foldl addUnique si.upiIds (findall upiIdsRe text)
    phishingLinks := List.foldl addUnique si.phishingLinks (findall phishingLinksRe text)
    phoneNumbers := List.foldl addUnique si.phoneNumbers (findall phoneNumbersRe text)
    suspiciousKeywords := List.foldl addUnique si.suspiciousKeywords
      (KEYWORDS_SCAM.filter (fun k => strContains (lowerStr text).data k.data)) }

/-! ### Session state and the `chat_handler` core (src/main.py lines 197-273) -/

/-- `CALLBACK_MESSAGE_THRESHOLD = 10` (src/main.py line 29). -/
def CALLBACK_MESSAGE_THRESHOLD : Nat := 10

/-- `SESSION_TIMEOUT_SECONDS = 1800` (src/main.py line 32); time is modelled
in whole seconds. -/
def SESSION_TIMEOUT_SECONDS : Int := 1800

/-- One history entry `{sender, text, timestamp}`. -/
structure Turn where
  sender : String
  text : String
  timestamp : String
deriving DecidableEq, Repr

/-- One session's state in `session_store`; `last_active` is a timestamp in
seconds (`datetime` in the source). -/
structure SessionState where
  history : List Turn
  intelligence : Intelligence
  last_active : Int
  callback_sent : Bool
  scam_detected : Bool
deriving DecidableEq, Repr

/-- `init_new_session_state()` (src/main.py lines 197-206); `now` is the
value `datetime.utcnow()` takes at the call. -/
def init_new_session_state (now : Int) : SessionState :=
  { history := []
    intelligence :=
      { bankAccounts := [], upiIds := [], phishingLinks := [], phoneNumbers := []
        suspiciousKeywords := [] }
    last_active := now
    callback_sent := false
    scam_detected := false }

/-- Session resolution (src/main.py lines 222-232): a missing session is
created fresh; an existing session older than the timeout is reset; then
`last_active` is set to `now`. -/
def resolveSession (existing : Option SessionState) (now : Int) : SessionState :=
  let s :=
    match existing with
    | some st =>
      if now - st.last_active > SESSION_TIMEOUT_SECONDS then init_new_session_state now
      else st
    | none => init_new_session_state now
  { s with last_active := now }

/-- What one call of the endpoint produces: the updated session, the reply,
whether `send_final_callback` was scheduled on this turn (`fired`), and the
response fields (src/main.py lines 268-273). -/
structure TurnResult where
  session : SessionState
  reply : String
  fired : Bool
  status : String
  respScamDetected : Bool
  respIntelligence : Intelligence
deriving Repr

/-- The per-message core of `chat_handler` (src/main.py lines 234-273), after
session resolution: classify, OR-update the sticky flag, extract
intelligence, choose the reply path, append the `(actor, agent)` pair, and
evaluate the callback trigger.  `f` is the external `generate_agent_reply`
(an opaque collaborator); `nowIso` is the string `now.isoformat() + "Z"`. -/
def processMessage (f : List Turn → String → String) (s0 : SessionState)
    (msgText msgTs nowIso : String) : TurnResult :=
  let is_scam := detect_scam msgText
  let s1 : SessionState := if is_scam then { s0 with scam_detected := true } else s0
  let s2 : SessionState :=
    { s1 with intelligence := extract_and_update_intelligence s1.intelligence msgText }
  let should_activate_agent := s2.scam_detected || decide (s2.history.length > 0)
  if should_activate_agent then
    let reply_text := f s2.history msgText
    let newHist := s2.history ++
      [{ sender := "scammer", text := msgText, timestamp := msgTs },
       { sender := "agent", text := reply_text, timestamp := nowIso }]
    let s3 : SessionState := { s2 with history := newHist }
    if s3.scam_detected && decide (newHist.length ≥ CALLBACK_MESSAGE_THRESHOLD)
        && !s3.callback_sent then
      let s4 : SessionState := { s3 with callback_sent := true }
      { session := s4, reply := reply_text, fired := true, status := "success",
        respScamDetected := s4.scam_detected, respIntelligence := s4.intelligence }
    else
      { session := s3, reply := reply_text, fired := false, status := "success",
        respScamDetected := s3.scam_detected, respIntelligence := s3.intelligence }
  else
    let reply_text := "Who is this?"
    let newHist := s2.history ++
      [{ sender := "scammer", text := msgText, timestamp := msgTs },
       { sender := "agent", text := reply_text, timestamp := nowIso }]
    let s3 : SessionState := { s2 with history := newHist }
    { session := s3, reply := reply_text, fired := false, status := "success",
      respScamDetected := s3.scam_detected, respIntelligence := s3.intelligence }

/-- The full endpoint body for one message: resolve the session for its key
at time `now`, then process the message. -/
def chat_handler (f : List Turn → String → String) (existing : Option SessionState)
    (now : Int) (msgText msgTs nowIso : String) : TurnResult :=
  processMessage f (resolveSession existing now) msgText msgTs nowIso

/-- One inbound message for a multi-turn run: text, its timestamp, and the
server-side ISO timestamp of the reply. -/
structure Msg where
  text : String
  ts : String
  nowIso : String
deriving Repr

/-- Process a list of messages on one session with no timeout reset in
between (the session-resolution step of later turns keeps the session, which
only updates `last_active`; `processMessage` never reads it).  Returns the
final session and the per-turn `fired` flags in order. -/
def runMessages (f : List Turn → String → String) (s : SessionState) :
    List Msg → SessionState × List Bool
  | [] => (s, [])
  | m :: rest =>
    let r := processMessage f s m.text m.ts m.nowIso
    let res := runMessages f r.session rest
    (res.1, r.fired :: res.2)

/-- Session states reachable by the endpoint: a fresh session, a resolved
session, or the result of processing one message. -/
inductive Reachable : SessionState → Prop where
  | init : ∀ t, Reachable (init_new_session_state t)
  | resolve : ∀ s now, Reachable s → Reachable (resolveSession (some s) now)
  | step : ∀ s f text ts iso, Reachable s →
      Reachable ((processMessage f s text ts iso).session)

/-- All five category lists are duplicate-free. -/
def NodupIntel (si : Intelligence) : Prop :=
  si.bankAccounts.Nodup ∧ si.upiIds.Nodup ∧ si.phishingLinks.Nodup ∧
    si.phoneNumbers.Nodup ∧ si.suspiciousKeywords.Nodup

instance (si : Intelligence) : Decidable (NodupIntel si) := by
  unfold NodupIntel
  infer_instance

/-- Every category list of `a` is an initial segment of the corresponding
list of `b`: updates only ever append, preserving first-seen order. -/
def ExtendsIntel (a b : Intelligence) : Prop :=
  (∃ t, b.bankAccounts = a.bankAccounts ++ t) ∧
    (∃ t, b.upiIds = a.upiIds ++ t) ∧
    (∃ t, b.phishingLinks = a.phishingLinks ++ t) ∧
    (∃ t, b.phoneNumbers = a.phoneNumbers ++ t) ∧
    (∃ t, b.suspiciousKeywords = a.suspiciousKeywords ++ t)

/-- Five identical scam-flagged inbound messages (each classified as a scam
via the keyword `"urgent"`). -/
def fiveScamMsgs : List Msg :=
  List.replicate 5 { text := "This is urgent", ts := "t", nowIso := "n" }

/-- A reply generator standing in for the external LLM in concrete runs. -/
def okReply : List Turn → String → String := fun _ _ => "ok"

/-- A session that already has the sticky flag set (the result of a turn is
irrelevant; only the flag matters for the sticky-detection witness). -/
def sessionScamSet : SessionState :=
  { init_new_session_state 0 with scam_detected := true }

/-- A concrete mid-conversation session used by the timeout-reset witness. -/
def sessionBusy : SessionState :=
  { history :=
      [{ sender := "scammer", text := "hi", timestamp := "t" },
       { sender := "agent", text := "ok", timestamp := "n" }]
    intelligence :=
      { bankAccounts := [], upiIds := ["john@upi"], phishingLinks := []
        phoneNumbers := [], suspiciousKeywords := ["upi"] }
    last_active := 0
    callback_sent := true
    scam_detected := true }

/-! ### Lemmas about `addUnique` folds -/

theorem mem_addUnique_of_mem {l : List String} {v : String} (w : String)
    (h : v ∈ l) : v ∈ addUnique l w := by
  unfold addUnique
  split <;> simp [h]

theorem mem_addUnique_self (l : List String) (v : String) : v ∈ addUnique l v := by
  unfold addUnique
  split <;> simp_all

theorem addUnique_eq_of_mem {l : List String} {v : String} (h : v ∈ l) :
    addUnique l v = l := by
  unfold addUnique
  simp [h]

theorem mem_foldl_addUnique_of_mem (L : List String) {l : List String}
    {v : String} (h : v ∈ l) : v ∈ List.foldl addUnique l L := by
  induction L generalizing l with
  | nil => simpa using h
  | cons a L ih => exact ih (mem_addUnique_of_mem a h)

theorem mem_foldl_addUnique_of_mem_arg {L : List String} (l : List String)
    {v : String} (h : v ∈ L) : v ∈ List.foldl addUnique l L := by
  induction L generalizing l with
  | nil => cases h
  | cons a L ih =>
    rcases List.mem_cons.mp h with rfl | h
    · exact mem_foldl_addUnique_of_mem L (mem_addUnique_self l v)
    · exact ih (addUnique l a) h

theorem foldl_addUnique_eq_of_subset {L l : List String}
    (h : ∀ v ∈ L, v ∈ l) : List.foldl addUnique l L = l := by
  induction L generalizing l with
  | nil => rfl
  | cons a L ih =>
    rw [List.foldl_cons, addUnique_eq_of_mem (h a (by simp))]
    exact ih fun v hv => h v (by simp [hv])

theorem foldl_addUnique_idem (l L : List String) :
    List.foldl addUnique (List.foldl addUnique l L) L = List.foldl addUnique l L :=
  foldl_addUnique_eq_of_subset fun _ hv => mem_foldl_addUnique_of_mem_arg l hv

theorem nodup_addUnique {l : List String} (v : String) (h : l.Nodup) :
    (addUnique l v).Nodup := by
  unfold addUnique
  split
  · exact h
  · simpa [List.nodup_append] using ⟨h, by assumption⟩

theorem nodup_foldl_addUnique (L : List String) {l : List String} (h : l.Nodup) :
    (List.foldl addUnique l L).Nodup := by
  induction L generalizing l with
  | nil => exact h
  | cons a L ih => exact ih (nodup_addUnique a h)

theorem addUnique_append (l : List String) (v : String) :
    ∃ t, addUnique l v = l ++ t := by
  unfold addUnique
  split
  · exact ⟨[], by simp⟩
  · exact ⟨[v], rfl⟩

theorem foldl_addUnique_append (L : List String) (l : List String) :
    ∃ t, List.foldl addUnique l L = l ++ t := by
  induction L generalizing l with
  | nil => exact ⟨[], by simp⟩
  | cons a L ih =>
    obtain ⟨t1, h1⟩ := addUnique_append l a
    obtain ⟨t2, h2⟩ := ih (addUnique l a)
    exact ⟨t1 ++ t2, by rw [List.foldl_cons, h2, h1, List.append_assoc]⟩

/-! ### Field lemmas about one processed message -/

theorem pm_scam (f : List Turn → String → String) (s : SessionState)
    (text ts iso : String) :
    (processMessage f s text ts iso).session.scam_detected
      = (s.scam_detected || detect_scam text) := by
  unfold processMessage
  by_cases hd : detect_scam text <;> simp [hd] <;> split <;> (try split) <;> simp_all

theorem pm_reply (f : List Turn → String → String) (s : SessionState)
    (text ts iso : String) :
    (processMessage f s text ts iso).reply
      = (if (s.scam_detected || detect_scam text) || decide (s.history.length > 0)
         then f s.history text else "Who is this?") := by
  unfold processMessage
  by_cases hd : detect_scam text <;> simp [hd] <;> split <;> (try split) <;> simp_all

theorem pm_history (f : List Turn → String → String) (s : SessionState)
    (text ts iso : String) :
    (processMessage f s text ts iso).session.history
      = s.history ++
        [{ sender := "scammer", text := text, timestamp := ts },
         { sender := "agent", text := (processMessage f s text ts iso).reply,
           timestamp := iso }] := by
  unfold processMessage
  by_cases hd : detect_scam text <;> simp [hd] <;> split <;> (try split) <;> simp_all

theorem pm_fired (f : List Turn → String → String) (s : SessionState)
    (text ts iso : String) :
    (processMessage f s text ts iso).fired
      = ((s.scam_detected || detect_scam text)
          && decide (s.history.length + 2 ≥ CALLBACK_MESSAGE_THRESHOLD)
          && !s.callback_sent) := by
  unfold processMessage
  by_cases hd : detect_scam text <;> by_cases hsc : s.scam_detected <;>
    simp [hd, hsc] <;> split <;> simp_all [List.length_append]

theorem pm_sent (f : List Turn → String → String) (s : SessionState)
    (text ts iso : String) :
    (processMessage f s text ts iso).session.callback_sent
      = (s.callback_sent || (processMessage f s text ts iso).fired) := by
  unfold processMessage
  by_cases hd : detect_scam text <;> simp [hd] <;> split <;> (try split) <;> simp_all

theorem pm_intel (f : List Turn → String → String) (s : SessionState)
    (text ts iso : String) :
    (processMessage f s text ts iso).session.intelligence
      = extract_and_update_intelligence s.intelligence text := by
  unfold processMessage
  by_cases hd : detect_scam text <;> simp [hd] <;> split <;> (try split) <;> simp_all

theorem pm_respScam (f : List Turn → String → String) (s : SessionState)
    (text ts iso : String) :
    (processMessage f s text ts iso).respScamDetected
      = (processMessage f s text ts iso).session.scam_detected := by
  unfold processMessage
  by_cases hd : detect_scam text <;> simp [hd] <;> split <;> (try split) <;> simp_all

/-- One processed message always leaves a safe state: if the sticky flag is
set and the history is at or past the threshold, the callback flag is set
(the trigger condition is re-examined with exactly these post-update values). -/
theorem pm_safe (f : List Turn → String → String) (s : SessionState)
    (text ts iso : String)
    (hscam : (processMessage f s text ts iso).session.scam_detected = true)
    (hlen : (processMessage f s text ts iso).session.history.length
      ≥ CALLBACK_MESSAGE_THRESHOLD) :
    (processMessage f s text ts iso).session.callback_sent = true := by
  have hh := pm_history f s text ts iso
  have hfl := pm_fired f s text ts iso
  have hst := pm_sent f s text ts iso
  have hsc := pm_scam f s text ts iso
  rw [hst, hfl]
  rw [hsc] at hscam
  rw [hh] at hlen
  simp only [List.length_append, List.length_cons, List.length_nil] at hlen
  by_cases hcb : s.callback_sent
  · simp [hcb]
  · simp [hcb, hscam, hlen]

/-! ### Lemmas about multi-turn runs -/

theorem run_sent_mono (f : List Turn → String → String) (ms : List Msg)
    (s : SessionState) (h : s.callback_sent = true) :
    (runMessages f s ms).1.callback_sent = true ∧
      (runMessages f s ms).2.count true = 0 := by
  induction ms generalizing s with
  | nil => simp [runMessages, h]
  | cons m rest ih =>
    have hf : (processMessage f s m.text m.ts m.nowIso).fired = false := by
      rw [pm_fired]; simp [h]
    have hs : (processMessage f s m.text m.ts m.nowIso).session.callback_sent = true := by
      rw [pm_sent, h]; rfl
    obtain ⟨ih1, ih2⟩ := ih _ hs
    simp [runMessages, ih1, ih2, hf]

theorem run_count_le_one (f : List Turn → String → String) (ms : List Msg)
    (s : SessionState) (h : s.callback_sent = false) :
    (runMessages f s ms).2.count true ≤ 1 := by
  induction ms generalizing s with
  | nil => simp [runMessages]
  | cons m rest ih =>
    by_cases hf : (processMessage f s m.text m.ts m.nowIso).fired
    · have hs : (processMessage f s m.text m.ts m.nowIso).session.callback_sent = true := by
        rw [pm_sent, hf]; simp
      have h0 := (run_sent_mono f rest _ hs).2
      simp [runMessages, hf, h0]
    · have hs : (processMessage f s m.text m.ts m.nowIso).session.callback_sent = false := by
        rw [pm_sent, h, eq_false_of_ne_true hf]; rfl
      have := ih _ hs
      simp only [runMessages, List.count_cons]
      simpa [eq_false_of_ne_true hf] using this

theorem run_count_pos_of_sent (f : List Turn → String → String) (ms : List Msg)
    (s : SessionState) (h : s.callback_sent = false)
    (hfin : (runMessages f s ms).1.callback_sent = true) :
    1 ≤ (runMessages f s ms).2.count true := by
  induction ms generalizing s with
  | nil =>
    rw [show (runMessages f s []).1 = s from rfl] at hfin
    rw [h] at hfin
    cases hfin
  | cons m rest ih =>
    by_cases hf : (processMessage f s m.text m.ts m.nowIso).fired
    · simp [runMessages, hf]
    · have hs : (processMessage f s m.text m.ts m.nowIso).session.callback_sent = false := by
        rw [pm_sent, h, eq_false_of_ne_true hf]; rfl
      have hfin' : (runMessages f (processMessage f s m.text m.ts m.nowIso).session rest).1.callback_sent = true := hfin
      have := ih _ hs hfin'
      simp only [runMessages, List.count_cons]
      omega

/-- The safety property of `pm_safe` carried along a run. -/
theorem run_safe (f : List Turn → String → String) (ms : List Msg)
    (s : SessionState)
    (h : s.scam_detected = true → s.history.length ≥ CALLBACK_MESSAGE_THRESHOLD →
      s.callback_sent = true) :
    (runMessages f s ms).1.scam_detected = true →
      (runMessages f s ms).1.history.length ≥ CALLBACK_MESSAGE_THRESHOLD →
      (runMessages f s ms).1.callback_sent = true := by
  induction ms generalizing s with
  | nil => exact h
  | cons m rest ih => exact ih _ (pm_safe f s m.text m.ts m.nowIso)

/-! ### The claims -/

/-- Claim C1: at-most-once report.  Over any sequence of messages processed
within one session without a timeout reset (any reply generator `f`, any
session creation time `t0`), the callback-dispatch trigger fires on at most
one turn; and if the sequence drives the session to `scamDetected = true`
with history at or past the threshold, it fires on exactly one turn. -/
theorem claim_C1 (f : List Turn → String → String) (t0 : Int) (ms : List Msg) :
    (runMessages f (init_new_session_state t0) ms).2.count true ≤ 1 ∧
      ((runMessages f (init_new_session_state t0) ms).1.scam_detected = true →
        (runMessages f (init_new_session_state t0) ms).1.history.length
          ≥ CALLBACK_MESSAGE_THRESHOLD →
        (runMessages f (init_new_session_state t0) ms).2.count true = 1) := by
  have hsent0 : (init_new_session_state t0).callback_sent = false := rfl
  refine ⟨run_count_le_one f ms _ hsent0, fun hscam hlen => ?_⟩
  have hsafe0 : (init_new_session_state t0).scam_detected = true →
      (init_new_session_state t0).history.length ≥ CALLBACK_MESSAGE_THRESHOLD →
      (init_new_session_state t0).callback_sent = true := by
    intro hc
    cases hc
  have hfin := run_safe f ms _ hsafe0 hscam hlen
  have hpos := run_count_pos_of_sent f ms _ hsent0 hfin
  have hle := run_count_le_one f ms _ hsent0
  omega

/-- Witness for C1: five scam-flagged exchanges from a fresh session make the
trigger fire exactly once. -/
theorem claim_C1_witness :
    (runMessages okReply (init_new_session_state 0) fiveScamMsgs).2.count true = 1 :=
  (claim_C1 okReply 0 fiveScamMsgs).2 (by decide) (by decide)

/-- Claim C2: the report trigger fires on a processed message iff, with the
history already updated for that turn, `scamDetected` holds, the history
length is at least `CALLBACK_MESSAGE_THRESHOLD`, and the callback has not
already been sent; and on five consecutive scam-flagged exchanges from a
fresh session the trigger fires exactly on the fifth turn, where the history
first reaches length 10. -/
theorem claim_C2 :
    (∀ (f : List Turn → String → String) (s : SessionState) (text ts iso : String),
      (processMessage f s text ts iso).fired
        = ((processMessage f s text ts iso).session.scam_detected
            && decide ((processMessage f s text ts iso).session.history.length
                ≥ CALLBACK_MESSAGE_THRESHOLD)
            && !s.callback_sent)) ∧
      (runMessages okReply (init_new_session_state 0) fiveScamMsgs).2
        = [false, false, false, false, true] := by
  constructor
  · intro f s text ts iso
    rw [pm_fired, pm_scam, pm_history]
    simp
  · decide

/-- Claim C3: pair invariant.  Every processed message appends exactly the
actor turn then the agent turn to the history, so its length grows by exactly
2; and every reachable session state has even history length. -/
theorem claim_C3 :
    (∀ (f : List Turn → String → String) (s : SessionState) (text ts iso : String),
      (processMessage f s text ts iso).session.history
        = s.history ++
          [{ sender := "scammer", text := text, timestamp := ts },
           { sender := "agent", text := (processMessage f s text ts iso).reply,
             timestamp := iso }] ∧
      (processMessage f s text ts iso).session.history.length
        = s.history.length + 2) ∧
      (∀ s, Reachable s → Even s.history.length) := by
  constructor
  · intro f s text ts iso
    refine ⟨pm_history f s text ts iso, ?_⟩
    rw [pm_history]
    simp
  · intro s hs
    induction hs with
    | init t => simp [init_new_session_state]
    | resolve s now _ ih =>
      unfold resolveSession
      by_cases ht : now - s.last_active > SESSION_TIMEOUT_SECONDS
      · simp [ht, init_new_session_state]
      · simpa [ht] using ih
    | step s f text ts iso _ ih =>
      rw [pm_history]
      simpa using ih.add (by decide : Even 2)

/-- Witness for C3: a fresh session has even history length. -/
theorem claim_C3_witness : Even (init_new_session_state 0).history.length :=
  claim_C3.2 _ (Reachable.init 0)

/-- Claim C4: sticky detection.  A processed message OR-updates the sticky
flag with the classifier's verdict (so it is never cleared by processing),
and in particular any message processed on a session with the flag set
leaves the flag set. -/
theorem claim_C4 :
    (∀ (f : List Turn → String → String) (s : SessionState) (text ts iso : String),
      (processMessage f s text ts iso).session.scam_detected
        = (s.scam_detected || detect_scam text)) ∧
      (∀ (f : List Turn → String → String) (s : SessionState) (text ts iso : String),
        s.scam_detected = true →
        (processMessage f s text ts iso).session.scam_detected = true) := by
  refine ⟨pm_scam, fun f s text ts iso h => ?_⟩
  rw [pm_scam, h]
  rfl

/-- Witness for C4: the non-scam message `"hello"` processed on a session
with the flag already set leaves the flag set. -/
theorem claim_C4_witness :
    (processMessage okReply sessionScamSet "hello" "t" "n").session.scam_detected
      = true :=
  claim_C4.2 okReply sessionScamSet "hello" "t" "n" (by decide)

/-- Claim C5: idempotent extraction with order preservation.  Updating the
intelligence twice with the same text equals updating it once; an update
keeps every category list duplicate-free; and an update only ever appends to
each category list (first-seen order is preserved). -/
theorem claim_C5 :
    (∀ (si : Intelligence) (text : String),
      extract_and_update_intelligence (extract_and_update_intelligence si text) text
        = extract_and_update_intelligence si text) ∧
      (∀ (si : Intelligence) (text : String), NodupIntel si →
        NodupIntel (extract_and_update_intelligence si text)) ∧
      (∀ (si : Intelligence) (text : String),
        ExtendsIntel si (extract_and_update_intelligence si text)) := by
  refine ⟨fun si text => ?_, fun si text h => ?_, fun si text => ?_⟩
  · simp only [extract_and_update_intelligence, foldl_addUnique_idem]
  · obtain ⟨h1, h2, h3, h4, h5⟩ := h
    exact ⟨nodup_foldl_addUnique _ h1, nodup_foldl_addUnique _ h2,
      nodup_foldl_addUnique _ h3, nodup_foldl_addUnique _ h4,
      nodup_foldl_addUnique _ h5⟩
  · exact ⟨foldl_addUnique_append _ _, foldl_addUnique_append _ _,
      foldl_addUnique_append _ _, foldl_addUnique_append _ _,
      foldl_addUnique_append _ _⟩

/-- Witness for C5: an update on a concrete duplicate-free store stays
duplicate-free. -/
theorem claim_C5_witness :
    NodupIntel (extract_and_update_intelligence
      (init_new_session_state 0).intelligence "pay to john@upi") :=
  claim_C5.2.1 _ "pay to john@upi" (by decide)

/-- Claim C6: timeout reset.  Resolving an existing session strictly older
than `SESSION_TIMEOUT_SECONDS` yields the fully reinitialized state (empty
history, all five intelligence lists empty, both flags false) timestamped
`now`; otherwise it returns the session unchanged except `last_active := now`. -/
theorem claim_C6 (s : SessionState) (now : Int) :
    (now - s.last_active > SESSION_TIMEOUT_SECONDS →
      resolveSession (some s) now = init_new_session_state now) ∧
      (now - s.last_active ≤ SESSION_TIMEOUT_SECONDS →
        resolveSession (some s) now = { s with last_active := now }) := by
  constructor
  · intro h
    simp only [resolveSession, gt_iff_lt]
    rw [if_pos h]
    rfl
  · intro h
    have h' : ¬(now - s.last_active > SESSION_TIMEOUT_SECONDS) := not_lt.mpr h
    simp [resolveSession, h']

/-- Witness for C6: a concrete busy session is reset by a message 1801
seconds later and kept (with refreshed activity time) by one 1800 seconds
later. -/
theorem claim_C6_witness :
    resolveSession (some sessionBusy) 1801 = init_new_session_state 1801 ∧
      resolveSession (some sessionBusy) 1800 = { sessionBusy with last_active := 1800 } :=
  ⟨(claim_C6 sessionBusy 1801).1 (by decide), (claim_C6 sessionBusy 1800).2 (by decide)⟩

/-- Claim C7: engagement activation rule.  The reply is the generator's
output exactly when the post-classification sticky flag is set or the history
is non-empty, and the fixed neutral string otherwise; a first message
`"hello"` on a brand-new session yields no detection, the neutral reply,
history length 2, and no trigger. -/
theorem claim_C7 :
    (∀ (f : List Turn → String → String) (s : SessionState) (text ts iso : String),
      (processMessage f s text ts iso).reply
        = (if (s.scam_detected || detect_scam text) || decide (s.history.length > 0)
           then f s.history text else "Who is this?")) ∧
      (∀ (f : List Turn → String → String) (t : Int) (ts iso : String),
        (processMessage f (init_new_session_state t) "hello" ts iso).session.scam_detected
            = false ∧
          (processMessage f (init_new_session_state t) "hello" ts iso).reply
            = "Who is this?" ∧
          (processMessage f (init_new_session_state t) "hello" ts iso).session.history.length
            = 2 ∧
          (processMessage f (init_new_session_state t) "hello" ts iso).fired = false) := by
  refine ⟨pm_reply, fun f t ts iso => ?_⟩
  have hd : detect_scam "hello" = false := by decide
  refine ⟨?_, ?_, ?_, ?_⟩
  · rw [pm_scam, hd]
    rfl
  · rw [pm_reply, hd]
    rfl
  · rw [pm_history]
    simp [init_new_session_state]
  · rw [pm_fired, hd]
    rfl

/-- Claim C8: worked example.  The KYC text is classified as a scam, and
extraction on a fresh session yields exactly the UPI id `john@upi`, the link
`http://bit.ly/x`, no phone or account numbers, and the suspicious keywords
`blocked, verify, kyc, upi, pay` in vocabulary-scan order. -/
theorem claim_C8 :
    detect_scam
        "Your KYC is blocked, pay to upi id john@upi or verify at http://bit.ly/x"
      = true ∧
      extract_and_update_intelligence (init_new_session_state 0).intelligence
          "Your KYC is blocked, pay to upi id john@upi or verify at http://bit.ly/x"
        = { bankAccounts := [], upiIds := ["john@upi"]
            phishingLinks := ["http://bit.ly/x"], phoneNumbers := []
            suspiciousKeywords := ["blocked", "verify", "kyc", "upi", "pay"] } := by
  constructor
  · decide
  · decide

/-- Claim C9: overlapping digit capture.  A bare 10-digit number starting
with 9 is recorded both as a phone number and as a bank account number: the
same digit substring lands in both category lists, with no suppression. -/
theorem claim_C9 :
    (extract_and_update_intelligence (init_new_session_state 0).intelligence
        "call me at 9876543210").phoneNumbers = ["9876543210"] ∧
      (extract_and_update_intelligence (init_new_session_state 0).intelligence
        "call me at 9876543210").bankAccounts = ["9876543210"] := by
  constructor
  · decide
  · decide

/-- Claim C10: the response's `scam_detected` field reports the sticky flag
after its OR-update, not the current message's classification; concretely, a
scam message followed by the non-scam `"hello"` in the same session yields a
second response that still carries `scam_detected = true`. -/
theorem claim_C10 :
    (∀ (f : List Turn → String → String) (s : SessionState) (text ts iso : String),
      (processMessage f s text ts iso).respScamDetected
        = (s.scam_detected || detect_scam text)) ∧
      (detect_scam "hello" = false ∧
        (processMessage okReply
            (processMessage okReply (init_new_session_state 0) "This is urgent" "t1" "n1").session
            "hello" "t2" "n2").respScamDetected = true) := by
  refine ⟨fun f s text ts iso => ?_, ?_, ?_⟩
  · rw [pm_respScam, pm_scam]
  · decide
  · rw [pm_respScam, pm_scam, pm_scam]
    decide

end HoneyPot
